import Mathlib

/-!
Verification of the terminal/tab coordinator in
`src/vs/workbench/parts/maix/serialPort/terminal/common/terminalService.ts`
(kendryte-ide). The `TerminalService` class owns an ordered list of tabs,
an active-tab index, global-to-local instance index translation, event
emission, persistence of the tab layout, and the shutdown-veto protocol.

The embedding below is a shallow one: the class's mutable fields become a
`TerminalService` structure, each method becomes a pure function from the
old state to the new state paired with the list of events/external calls it
fires (in firing order), and JavaScript numbers used as indices become
`Int` (they can be negative). `ISerialPortTab` (class `TerminalTab`) and
the concrete instance factory are not part of the given source; the few
facts needed about them are modelled from the spec and marked as such.
JSON values travelling through the host's `JSON.parse`/`JSON.stringify`
are modelled by the `Json` inductive; a persisted string that fails to
parse is modelled as `Except.error` (JSON.parse throws on malformed input),
and the stringify/parse round trip of the host JSON library is taken as
the identity on `Json` values.
-/

namespace KendryteIDE

/-- Serialized launch descriptors (`ISerialLaunchConfig`) and persisted
layouts are plain JSON data; this inductive models the host JSON values. -/
inductive Json where
  | null : Json
  | jbool : Bool → Json
  | jnum : Int → Json
  | jstr : String → Json
  | jarr : List Json → Json
  | jobj : List (String × Json) → Json

/-- One terminal session (`ISerialPortInstance`), referenced by its stable
unique id; `shellLaunchConfig` is the launch descriptor used for
persistence. -/
structure SerialInstance where
  id : Nat
  shellLaunchConfig : Json

/-- Modelled from the spec: `ISerialPortTab` (the `TerminalTab` class is not
part of the given source). An ordered sequence of instances, the index of
the tab's active instance, and the visibility flag driven by
`setVisible`. -/
structure SerialPortTab where
  terminalInstances : List SerialInstance
  activeInstanceIndex : Nat
  visible : Bool

/-- The mutable fields of the `TerminalService` class: `_terminalTabs`,
`_activeTabIndex` (a JavaScript number, hence `Int`), `_isShuttingDown`,
plus an id allocator modelling the factory's unique, never-reused
instance ids. -/
structure TerminalService where
  terminalTabs : List SerialPortTab
  activeTabIndex : Int
  isShuttingDown : Bool
  nextId : Nat

/-- Events fired / external requests issued by coordinator operations, in
firing order. `activeInstanceChanged` carries the id of the instance (or
`none` for `fire(undefined)`); `hidePanelRequested` stands for the
`hidePanel()` call and `focusRequested` for `getActiveInstance().focus`. -/
inductive TEvent where
  | activeTabChanged : TEvent
  | instancesChanged : TEvent
  | activeInstanceChanged : Option Nat → TEvent
  | hidePanelRequested : TEvent
  | focusRequested : TEvent
deriving DecidableEq, Repr

/-- Constructor state: `this._activeTabIndex = 0; this._isShuttingDown = false;`
with no tabs yet. -/
def initialService : TerminalService :=
  { terminalTabs := [], activeTabIndex := 0, isShuttingDown := false, nextId := 0 }

/-- The flattened instance list: `terminalInstances` of the concrete service
is the concatenation of every tab's instances in tab order (the
"flattened/global index" order of the spec; the getter is abstract in
`terminalService.ts`). -/
def terminalInstances (s : TerminalService) : List SerialInstance :=
  (s.terminalTabs.map (·.terminalInstances)).flatten

/-- Helper for `t.setVisible(i === active)` applied across the tab list
(`this._terminalTabs.forEach((t, i) => t.setVisible(i === idx))`); `start`
is the position of the first element of `tabs` in the original list. -/
def setVisiblesAux (active : Int) : Nat → List SerialPortTab → List SerialPortTab
  | _, [] => []
  | i, t :: rest =>
      { t with visible := decide ((i : Int) = active) } :: setVisiblesAux active (i + 1) rest

/-- Applies `setVisible(i === active)` to every tab, numbering from 0. -/
def setVisibles (active : Int) (tabs : List SerialPortTab) : List SerialPortTab :=
  setVisiblesAux active 0 tabs

/-- Replaces the tab at position `n` by `f` of it (in-place mutation of the
tab object `this._terminalTabs[n]` in the source). -/
def modifyAt (f : SerialPortTab → SerialPortTab) : List SerialPortTab → Nat → List SerialPortTab
  | [], _ => []
  | t :: rest, 0 => f t :: rest
  | t :: rest, n + 1 => t :: modifyAt f rest n

/-- Source `getActiveTab()`: `null` when `_activeTabIndex` is negative or
not below the tab count, otherwise the tab at that index. -/
def getActiveTab (s : TerminalService) : Option SerialPortTab :=
  if s.activeTabIndex < 0 ∨ (s.terminalTabs.length : Int) ≤ s.activeTabIndex then none
  else s.terminalTabs.get? s.activeTabIndex.toNat

/-- Modelled from the spec: `ISerialPortTab.activeInstance` (the tab class is
not part of the given source) — the instance at the tab's
`activeInstanceIndex`, `none` when that index is not valid. -/
def tabActiveInstance (t : SerialPortTab) : Option SerialInstance :=
  t.terminalInstances.get? t.activeInstanceIndex

/-- Source `getActiveInstance()`: `null` when there is no active tab,
otherwise the active tab's active instance. -/
def getActiveInstance (s : TerminalService) : Option SerialInstance :=
  match getActiveTab s with
  | none => none
  | some t => tabActiveInstance t

/-- Source `setActiveTabByIndex(tabIndex)`: returns early when
`tabIndex >= this._terminalTabs.length` (the only guard — negative values
pass it); otherwise stores the index, reapplies `setVisible` across all
tabs against the new index, and fires "active tab changed" only when the
index actually changed. -/
def setActiveTabByIndex (s : TerminalService) (tabIndex : Int) : TerminalService × List TEvent :=
  if (s.terminalTabs.length : Int) ≤ tabIndex then (s, [])
  else
    let didTabChange : Bool := decide (s.activeTabIndex ≠ tabIndex)
    ({ s with activeTabIndex := tabIndex,
              terminalTabs := setVisibles tabIndex s.terminalTabs },
     if didTabChange then [TEvent.activeTabChanged] else [])

/-- Result record of `_getInstanceFromGlobalInstanceIndex`: the owning tab,
its index, the resolved instance and its local index. -/
structure GlobalInstanceQuery where
  tab : SerialPortTab
  tabIndex : Nat
  inst : SerialInstance
  localInstanceIndex : Nat

/-- The prefix-sum walk of `_getInstanceFromGlobalInstanceIndex`: while the
remaining index is nonnegative and tabs remain, either the index falls
inside the current tab (resolve) or the tab's instance count is subtracted
and the walk moves to the next tab; `none` when the walk runs out of tabs
(or the index is negative). -/
def globalWalk : List SerialPortTab → Int → Nat → Option GlobalInstanceQuery
  | [], _, _ => none
  | tab :: rest, index, curTabIndex =>
      if h : 0 ≤ index ∧ index < (tab.terminalInstances.length : Int) then
        some { tab := tab
               tabIndex := curTabIndex
               inst := tab.terminalInstances.get ⟨index.toNat, by omega⟩
               localInstanceIndex := index.toNat }
      else if 0 ≤ index then
        globalWalk rest (index - tab.terminalInstances.length) (curTabIndex + 1)
      else none

/-- Source `_getInstanceFromGlobalInstanceIndex(index)` over the service's
tab list. -/
def getInstanceFromGlobalInstanceIndex (s : TerminalService) (index : Int) :
    Option GlobalInstanceQuery :=
  globalWalk s.terminalTabs index 0

/-- Modelled from the spec: `ISerialPortTab.setActiveInstanceByIndex(i)` (the
tab class is not part of the given source) — stores a valid index as the
tab's active-instance index; the spec's OutOfRange failure case is
modelled as no change (callers in this development always pass the valid
local index produced by the prefix-sum walk). -/
def tabSetActiveInstanceByIndex (i : Nat) (t : SerialPortTab) : SerialPortTab :=
  if i < t.terminalInstances.length then { t with activeInstanceIndex := i } else t

/-- Source `setActiveInstanceByIndex(terminalIndex)`: resolves the global
index via the prefix-sum walk; a failed resolution is a silent no-op; on
success sets the local active instance on the owning tab, stores that
tab's index as the active-tab index, reapplies visibility, and fires
"active tab changed" only when the tab index actually changed. -/
def setActiveInstanceByIndex (s : TerminalService) (terminalIndex : Int) :
    TerminalService × List TEvent :=
  match getInstanceFromGlobalInstanceIndex s terminalIndex with
  | none => (s, [])
  | some q =>
      let tabs1 := modifyAt (tabSetActiveInstanceByIndex q.localInstanceIndex)
        s.terminalTabs q.tabIndex
      let didTabChange : Bool := decide (s.activeTabIndex ≠ (q.tabIndex : Int))
      ({ s with terminalTabs := setVisibles (q.tabIndex : Int) tabs1,
                activeTabIndex := (q.tabIndex : Int) },
       if didTabChange then [TEvent.activeTabChanged] else [])

/-- Modelled from the spec: `createTerminal` (abstract in
`terminalService.ts`; the concrete factory lives outside the given
source) — constructs a new instance seeded with the given launch config
(host-default when the argument is `undefined`), houses it in a brand-new
tab appended to `tabs`, wires its notifications, and fires "instances
changed". The fresh id models the factory's unique never-reused ids. -/
def defaultLaunchConfig : Json := Json.jobj []

/-- Modelled from the spec: see `defaultLaunchConfig`'s comment;
`createTerminal` appends a brand-new tab holding one new instance and
fires "instances changed" (it does not touch the active-tab index). -/
def createTerminal (s : TerminalService) (shell : Option Json) :
    TerminalService × SerialInstance × List TEvent :=
  let inst : SerialInstance := { id := s.nextId, shellLaunchConfig := shell.getD defaultLaunchConfig }
  let tab : SerialPortTab := { terminalInstances := [inst], activeInstanceIndex := 0, visible := false }
  ({ s with terminalTabs := s.terminalTabs ++ [tab], nextId := s.nextId + 1 },
   inst, [TEvent.instancesChanged])

/-- Whether the tab's instance list holds the instance with the given id
(`tab.terminalInstances.indexOf(instance) !== -1`, with object identity
modelled by the unique id). -/
def tabHasInstance (t : SerialPortTab) (instId : Nat) : Bool :=
  t.terminalInstances.any (fun i => i.id == instId)

/-- Source `_getTabForInstance(instance)`: the first tab whose instance list
contains the instance, here returned as a position in the tab list. -/
def getTabForInstance (tabs : List SerialPortTab) (instId : Nat) : Option Nat :=
  match tabs with
  | [] => none
  | t :: rest =>
      if tabHasInstance t instId then some 0
      else (getTabForInstance rest instId).map (· + 1)

/-- Modelled from the spec: `Tab.split` (the tab class is not part of the
given source) — appends the newly created instance to the tab's instance
list and makes it the tab's active instance. -/
def splitF (newInst : SerialInstance) (t : SerialPortTab) : SerialPortTab :=
  { t with terminalInstances := t.terminalInstances ++ [newInst],
           activeInstanceIndex := t.terminalInstances.length }

/-- Source `splitInstance(instanceToSplit, shellLaunchConfig = {})`: a silent
no-op when the instance is not tracked; otherwise delegates to
`Tab.split` (`splitF`) with a freshly created instance, fires "instances
changed", and reapplies visibility against the current active-tab
index. -/
def splitInstance (s : TerminalService) (instId : Nat) (shell : Option Json) :
    TerminalService × List TEvent :=
  match getTabForInstance s.terminalTabs instId with
  | none => (s, [])
  | some ti =>
      let newInst : SerialInstance := { id := s.nextId, shellLaunchConfig := shell.getD (Json.jobj []) }
      let tabs1 := modifyAt (splitF newInst) s.terminalTabs ti
      ({ s with terminalTabs := setVisibles s.activeTabIndex tabs1, nextId := s.nextId + 1 },
       [TEvent.instancesChanged])

/-- Source `_removeTab(tab)`: `pos` is the position of the (tracked) tab
object firing its disposal. Records whether the tab was the active one
(object identity against `getActiveTab()`), splices it out, adjusts the
active tab (`index < length ? index : length - 1`, focusing its active
instance) only when the removed tab was active and tabs remain, requests
a panel hide and fires "active instance changed" with `undefined` when no
tabs remain and the service is not shutting down, always fires "instances
changed", and fires "active tab changed" only when the removed tab was
active. -/
def removeTab (s : TerminalService) (pos : Nat) : TerminalService × List TEvent :=
  let wasActiveTab : Bool :=
    decide (pos < s.terminalTabs.length) && decide (s.activeTabIndex = (pos : Int))
  let tabs1 := if pos < s.terminalTabs.length then s.terminalTabs.eraseIdx pos else s.terminalTabs
  let s1 : TerminalService := { s with terminalTabs := tabs1 }
  let adj : TerminalService × List TEvent :=
    if wasActiveTab = true ∧ 0 < tabs1.length then
      let newIndex : Nat := if pos < tabs1.length then pos else tabs1.length - 1
      let r := setActiveTabByIndex s1 (newIndex : Int)
      (r.1, r.2 ++ [TEvent.focusRequested])
    else (s1, [])
  let evsB : List TEvent :=
    if adj.1.terminalTabs.length = 0 ∧ s.isShuttingDown = false then
      [TEvent.hidePanelRequested, TEvent.activeInstanceChanged none]
    else []
  let evsC : List TEvent :=
    TEvent.instancesChanged :: (if wasActiveTab = true then [TEvent.activeTabChanged] else [])
  (adj.1, adj.2 ++ evsB ++ evsC)

/-- Result of `_onWillShutdown()`: the state after the call, the veto value
returned to the lifecycle host, and whether the external confirmation
prompt (`_showTerminalCloseConfirmation`) was invoked. -/
structure WillShutdownResult where
  state : TerminalService
  veto : Bool
  promptInvoked : Bool

/-- Source `_onWillShutdown()`: no veto (and no prompt) when there are zero
instances; with `confirmOnExit` the prompt is awaited and its resolution
`promptVeto` is returned as the veto, setting `_isShuttingDown` exactly
when the user chose not to veto; without `confirmOnExit` the flag is set
immediately and no veto is returned. -/
def onWillShutdown (s : TerminalService) (confirmOnExit promptVeto : Bool) :
    WillShutdownResult :=
  if (terminalInstances s).length = 0 then
    { state := s, veto := false, promptInvoked := false }
  else if confirmOnExit then
    { state := if promptVeto then s else { s with isShuttingDown := true }
      veto := promptVeto
      promptInvoked := true }
  else
    { state := { s with isShuttingDown := true }, veto := false, promptInvoked := false }

/-- The tab layout written to the storage service by `_onShutdown`:
`terminalTabs.map(tab => ({ instances: tab.terminalInstances.map(i => i.shellLaunchConfig) }))`
as a JSON value (the host's `JSON.stringify`/`JSON.parse` round trip is
the identity on such plain data, so the store is modelled at the `Json`
level). -/
def serializeLayout (tabs : List SerialPortTab) : Json :=
  Json.jarr (tabs.map fun tab =>
    Json.jobj [("instances", Json.jarr (tab.terminalInstances.map (·.shellLaunchConfig)))])

/-- JavaScript `Array.prototype.forEach` applied to `instance.dispose()`:
`disposeFails k` says the `k`-th dispose call (flattened order) throws.
Returns the positions on which `dispose` was actually invoked and whether
an exception escaped; an exception aborts the iteration, so later
instances are not visited. `k` is the position of the first element. -/
def disposeRun (disposeFails : Nat → Bool) : Nat → List SerialInstance → List Nat × Bool
  | _, [] => ([], false)
  | k, _ :: rest =>
      if disposeFails k then ([k], true)
      else
        let r := disposeRun disposeFails (k + 1) rest
        (k :: r.1, r.2)

/-- Result of `_onShutdown()`: the value left in the persistence store under
`terminal.state` (as a parse outcome) and the outcome of the disposal
loop. -/
structure ShutdownResult where
  stored : Option (Except Unit Json)
  disposedCalls : List Nat
  raised : Bool

/-- Source `_onShutdown()`: when the restore feature is enabled, serializes
every tab's instance launch configs (tab order then instance order) and
overwrites the fixed storage slot; then runs
`terminalInstances.forEach(instance => instance.dispose())`. -/
def onShutdown (s : TerminalService) (experimentalRestore : Bool)
    (prevStore : Option (Except Unit Json)) (disposeFails : Nat → Bool) : ShutdownResult :=
  let stored := if experimentalRestore then some (Except.ok (serializeLayout s.terminalTabs))
                else prevStore
  let d := disposeRun disposeFails 0 (terminalInstances s)
  { stored := stored, disposedCalls := d.1, raised := d.2 }

/-- JavaScript object key lookup (the serialized descriptors never repeat a
key, so first match suffices). -/
def jsonLookup : List (String × Json) → String → Option Json
  | [], _ => none
  | (k, v) :: rest, key => if k = key then some v else jsonLookup rest key

/-- JavaScript property access `v.key` on a parsed JSON value: throws
(TypeError) on `null`, looks the key up on an object, and yields
`undefined` (here `none`) on every other value. -/
def jsGet (v : Json) (key : String) : Except Unit (Option Json) :=
  match v with
  | Json.null => Except.error ()
  | Json.jobj fields => Except.ok (jsonLookup fields key)
  | _ => Except.ok none

/-- JavaScript index access `v[i]` where `v` may be `undefined`: throws on
`undefined` and `null`, indexes arrays (yielding `undefined` past the
end), indexes strings character-wise, looks `toString i` up on objects,
and yields `undefined` on numbers and booleans. -/
def jsIndex (v : Option Json) (i : Nat) : Except Unit (Option Json) :=
  match v with
  | none => Except.error ()
  | some Json.null => Except.error ()
  | some (Json.jarr xs) => Except.ok (xs.get? i)
  | some (Json.jstr str) => Except.ok ((str.data.get? i).map fun c => Json.jstr (String.mk [c]))
  | some (Json.jobj fields) => Except.ok (jsonLookup fields (toString i))
  | some _ => Except.ok none

/-- The iteration bound of `for (let i = 1; i < tabConfig.instances.length; i++)`:
array and string lengths count; on other values `.length` is `undefined`
(or must be a number field of an object) and the comparison with a
non-number makes the loop run zero times. -/
def jsLen (v : Json) : Nat :=
  match v with
  | Json.jarr xs => xs.length
  | Json.jstr s => s.length
  | Json.jobj fields =>
      match jsonLookup fields "length" with
      | some (Json.jnum n) => n.toNat
      | _ => 0
  | _ => 0

/-- The split loop of `_restoreTabs`:
`for (let i = 1; i < tabConfig.instances.length; i++) splitInstance(instance, tabConfig.instances[i])`,
with `instId` the id of the instance created for the tab's first config,
`v` the `instances` value, `i` the loop counter and the fuel the number
of remaining iterations. -/
def restoreSplits (instId : Nat) (v : Json) :
    TerminalService → Nat → Nat → Except Unit (TerminalService × List TEvent)
  | s, _, 0 => Except.ok (s, [])
  | s, i, fuel + 1 =>
      match jsIndex (some v) i with
      | Except.error e => Except.error e
      | Except.ok cfg =>
          let r1 := splitInstance s instId cfg
          match restoreSplits instId v r1.1 (i + 1) fuel with
          | Except.error e => Except.error e
          | Except.ok r2 => Except.ok (r2.1, r1.2 ++ r2.2)

/-- One iteration of `tabConfigs.forEach` in `_restoreTabs`: creates the
first instance via `createTerminal(tabConfig.instances[0])` (the modelled
factory always succeeds, so the `if (!instance) return;` guard does not
trigger) and splits the remaining configs in order. -/
def restoreOne (s : TerminalService) (tabConfig : Json) :
    Except Unit (TerminalService × List TEvent) :=
  match jsGet tabConfig "instances" with
  | Except.error e => Except.error e
  | Except.ok instancesVal =>
      match jsIndex instancesVal 0 with
      | Except.error e => Except.error e
      | Except.ok firstCfg =>
          let r1 := createTerminal s firstCfg
          match instancesVal with
          | none => Except.ok (r1.1, r1.2.2)
          | some v =>
              match restoreSplits r1.2.1.id v r1.1 1 (jsLen v - 1) with
              | Except.error e => Except.error e
              | Except.ok r2 => Except.ok (r2.1, r1.2.2 ++ r2.2)

/-- The `tabConfigs.forEach(...)` fold of `_restoreTabs` over the elements of
the parsed array. -/
def restoreList : TerminalService → List Json → Except Unit (TerminalService × List TEvent)
  | s, [] => Except.ok (s, [])
  | s, c :: rest =>
      match restoreOne s c with
      | Except.error e => Except.error e
      | Except.ok r1 =>
          match restoreList r1.1 rest with
          | Except.error e => Except.error e
          | Except.ok r2 => Except.ok (r2.1, r1.2 ++ r2.2)

/-- Source `_restoreTabs()`: a no-op when the restore feature flag is off or
the stored value is absent (or the empty string); `JSON.parse` of a
malformed stored string throws (modelled as the stored `Except.error`
propagating); a parsed value that is not an array (`Array.isArray`) is a
silent no-op; otherwise each serialized tab descriptor is restored in
order. -/
def restoreTabs (s : TerminalService) (experimentalRestore : Bool)
    (stored : Option (Except Unit Json)) : Except Unit (TerminalService × List TEvent) :=
  if experimentalRestore = false then Except.ok (s, [])
  else
    match stored with
    | none => Except.ok (s, [])
    | some (Except.error e) => Except.error e
    | some (Except.ok j) =>
        match j with
        | Json.jarr tabConfigs => restoreList s tabConfigs
        | _ => Except.ok (s, [])

/-! Helper lemmas about the visibility sweep. -/

theorem setVisiblesAux_length (a : Int) (c : Nat) (tabs : List SerialPortTab) :
    (setVisiblesAux a c tabs).length = tabs.length := by
  induction tabs generalizing c with
  | nil => rfl
  | cons t rest ih => simpa [setVisiblesAux] using ih (c + 1)

theorem setVisibles_length (a : Int) (tabs : List SerialPortTab) :
    (setVisibles a tabs).length = tabs.length := setVisiblesAux_length a 0 tabs

theorem setVisiblesAux_neg_invisible (a : Int) (ha : a < 0) (c : Nat)
    (tabs : List SerialPortTab) : ∀ t ∈ setVisiblesAux a c tabs, t.visible = false := by
  induction tabs generalizing c with
  | nil => intro t ht; cases ht
  | cons t rest ih =>
      intro u hu
      rcases List.mem_cons.mp hu with h | h
      · subst h
        simp only [decide_eq_false_iff_not]
        omega
      · exact ih (c + 1) u h

/-! Concrete states used by witnesses and counterexamples. -/

/-- A service holding a single tab with a single instance. -/
def sSolo : TerminalService :=
  { terminalTabs := [{ terminalInstances := [{ id := 0, shellLaunchConfig := Json.jobj [] }],
                       activeInstanceIndex := 0, visible := true }],
    activeTabIndex := 0, isShuttingDown := false, nextId := 1 }

/-- C10: reads fail closed — whenever `_activeTabIndex` lies outside
`[0, len(tabs))` (negative values included, tabs possibly non-empty),
`getActiveTab` and `getActiveInstance` both return `none`; both are total
functions, so no exception is possible. -/
theorem C10_reads_fail_closed (s : TerminalService)
    (h : s.activeTabIndex < 0 ∨ (s.terminalTabs.length : Int) ≤ s.activeTabIndex) :
    getActiveTab s = none ∧ getActiveInstance s = none := by
  have ht : getActiveTab s = none := by
    unfold getActiveTab
    exact if_pos h
  exact ⟨ht, by unfold getActiveInstance; rw [ht]⟩

theorem C10_witness :
    ((-1 : Int) < 0 ∨ ((sSolo.terminalTabs.length : Int) ≤ -1)) ∧
    (getActiveTab { sSolo with activeTabIndex := -1 } = none ∧
     getActiveInstance { sSolo with activeTabIndex := -1 } = none) :=
  ⟨Or.inl (by decide),
   C10_reads_fail_closed { sSolo with activeTabIndex := -1 } (Or.inl (by decide))⟩

/-- C4: event-count contract of `setActiveTabByIndex` — calling it with the
already-active index fires zero "active tab changed" events, and calling
it with a different valid index fires exactly one. -/
theorem C4_event_count (s : TerminalService) (i : Int) :
    (i = s.activeTabIndex → (setActiveTabByIndex s i).2 = []) ∧
    (i ≠ s.activeTabIndex → 0 ≤ i → i < (s.terminalTabs.length : Int) →
      (setActiveTabByIndex s i).2 = [TEvent.activeTabChanged]) := by
  constructor
  · intro hEq
    unfold setActiveTabByIndex
    split
    · rfl
    · simp [hEq]
  · intro hNe _h0 hLt
    unfold setActiveTabByIndex
    rw [if_neg (by omega)]
    have hx : ¬s.activeTabIndex = i := fun h => hNe h.symm
    simp [hx]

theorem C4_witness :
    (setActiveTabByIndex sSolo 0).2 = [] ∧
    ((setActiveTabByIndex { sSolo with activeTabIndex := 1 } 0).2 =
      [TEvent.activeTabChanged]) :=
  ⟨(C4_event_count sSolo 0).1 rfl,
   (C4_event_count { sSolo with activeTabIndex := 1 } 0).2 (by decide) (by decide) (by decide)⟩

/-- C5 counterexample: `setActiveTabByIndex(-1)` on a one-tab service is not
a no-op — the only guard in the source is `tabIndex >= length`, so a
negative index is stored into `_activeTabIndex`, every tab's `visible`
flag is cleared (no position equals `-1`), and "active tab changed"
fires. This falsifies the claim that every negative index is a no-op
leaving all state unchanged with no event. -/
theorem C5_counterexample :
    (setActiveTabByIndex sSolo (-1)).1.activeTabIndex = -1 ∧
    (setActiveTabByIndex sSolo (-1)).2 = [TEvent.activeTabChanged] ∧
    (setActiveTabByIndex sSolo (-1)).1.terminalTabs.map (·.visible) = [false] := by
  decide

/-- C5 amended: `setActiveTabByIndex(i)` is a no-op exactly for
`i >= len(tabs)`; a negative `i` is accepted and proceeds — it stores `i`
as the active-tab index, clears every tab's `visible` flag, and fires
"active tab changed" precisely when `i` differs from the current
index. -/
theorem C5_amended_negative_not_noop (s : TerminalService) (i : Int) :
    ((s.terminalTabs.length : Int) ≤ i → setActiveTabByIndex s i = (s, [])) ∧
    (i < 0 →
      (setActiveTabByIndex s i).1.activeTabIndex = i ∧
      (∀ t ∈ (setActiveTabByIndex s i).1.terminalTabs, t.visible = false) ∧
      (setActiveTabByIndex s i).2 =
        (if s.activeTabIndex = i then [] else [TEvent.activeTabChanged])) := by
  constructor
  · intro hGe
    unfold setActiveTabByIndex
    exact if_pos hGe
  · intro hNeg
    unfold setActiveTabByIndex
    rw [if_neg (by omega)]
    refine ⟨rfl, setVisiblesAux_neg_invisible i hNeg 0 s.terminalTabs, ?_⟩
    by_cases h : s.activeTabIndex = i <;> simp [h]

theorem C5_amended_witness :
    ((-1 : Int) < 0) ∧
    ((setActiveTabByIndex sSolo (-1)).1.activeTabIndex = -1 ∧
     (∀ t ∈ (setActiveTabByIndex sSolo (-1)).1.terminalTabs, t.visible = false) ∧
     (setActiveTabByIndex sSolo (-1)).2 =
       (if sSolo.activeTabIndex = -1 then [] else [TEvent.activeTabChanged])) :=
  ⟨by decide, (C5_amended_negative_not_noop sSolo (-1)).2 (by decide)⟩

/-- The state reached by: createTerminal; createTerminal;
setActiveTabByIndex 1; disposal of the first tab. -/
def c1Removed : TerminalService :=
  (removeTab (setActiveTabByIndex
      ((createTerminal ((createTerminal initialService none).1) none).1) 1).1 0).1

/-- C1 (code bug evaluation): after two `createTerminal`s,
`setActiveTabByIndex(1)` and removal of the non-active tab 0, the service
holds one tab but `_activeTabIndex` is still `1` — `_removeTab` only
adjusts the index when the removed tab was the active one, so invariant
I1 (`activeTabIndex ∈ [0, len(tabs))` or `tabs` empty) is violated and
`getActiveTab()` returns `null` although a tab exists. -/
theorem C1_code_bug_eval :
    c1Removed.terminalTabs.length = 1 ∧ c1Removed.activeTabIndex = 1 ∧
    (getActiveTab c1Removed).isNone = true := by
  decide

/-- C6 counterexample: on a service with one instance, confirm-on-exit
enabled and the prompt resolving to "proceed" (no veto), the prompt path
also sets `_isShuttingDown` — so the confirm-disabled path is not the
only path that sets it, falsifying the claim's last conjunct. -/
theorem C6_counterexample :
    (onWillShutdown sSolo true false).promptInvoked = true ∧
    (onWillShutdown sSolo true false).state.isShuttingDown = true ∧
    (onWillShutdown sSolo true false).veto = false := by
  decide

/-- C6 amended: `_onWillShutdown` returns no veto and invokes no prompt when
there are zero instances; with instances and confirm-on-exit disabled it
sets `_isShuttingDown` immediately, without the prompt and with no veto;
with confirm-on-exit enabled and the prompt resolving to cancel it
returns a veto and `_isShuttingDown` stays false. The flag is set exactly
when there is at least one instance and either confirmation is disabled
or the prompt resolves to proceed — i.e. both the confirm-disabled path
and the prompt-proceed path set it, and nothing else does. -/
theorem C6_amended_shutdown_veto (s : TerminalService) (confirmOnExit promptVeto : Bool)
    (h : s.isShuttingDown = false) :
    ((terminalInstances s).length = 0 →
      (onWillShutdown s confirmOnExit promptVeto).veto = false ∧
      (onWillShutdown s confirmOnExit promptVeto).promptInvoked = false ∧
      (onWillShutdown s confirmOnExit promptVeto).state = s) ∧
    ((terminalInstances s).length ≠ 0 → confirmOnExit = false →
      (onWillShutdown s confirmOnExit promptVeto).veto = false ∧
      (onWillShutdown s confirmOnExit promptVeto).promptInvoked = false ∧
      (onWillShutdown s confirmOnExit promptVeto).state.isShuttingDown = true) ∧
    ((terminalInstances s).length ≠ 0 → confirmOnExit = true → promptVeto = true →
      (onWillShutdown s confirmOnExit promptVeto).veto = true ∧
      (onWillShutdown s confirmOnExit promptVeto).promptInvoked = true ∧
      (onWillShutdown s confirmOnExit promptVeto).state.isShuttingDown = false) ∧
    ((onWillShutdown s confirmOnExit promptVeto).state.isShuttingDown = true ↔
      (terminalInstances s).length ≠ 0 ∧ (confirmOnExit = false ∨ promptVeto = false)) := by
  unfold onWillShutdown
  by_cases h0 : (terminalInstances s).length = 0
  · simp [h0, h]
  · cases confirmOnExit <;> cases promptVeto <;> simp [h0, h]

theorem C6_amended_witness :
    (sSolo.isShuttingDown = false) ∧
    ((terminalInstances sSolo).length ≠ 0 → true = true → true = true →
      (onWillShutdown sSolo true true).veto = true ∧
      (onWillShutdown sSolo true true).promptInvoked = true ∧
      (onWillShutdown sSolo true true).state.isShuttingDown = false) :=
  ⟨rfl, (C6_amended_shutdown_veto sSolo true true rfl).2.2.1⟩

/-! The disposal loop of `_onShutdown`. -/

theorem disposeRun_eq (fails : Nat → Bool) (l : List SerialInstance) :
    ∀ k, disposeRun fails k l =
      match (List.range' k l.length).find? fails with
      | none => (List.range' k l.length, false)
      | some k0 => (List.range' k (k0 + 1 - k), true) := by
  induction l with
  | nil => intro k; simp [disposeRun]
  | cons a rest ih =>
      intro k
      rw [List.length_cons, List.range'_succ k rest.length 1]
      by_cases hk : fails k
      · rw [List.find?_cons_of_pos _ hk]
        simp [disposeRun, hk, List.range'_one]
      · rw [List.find?_cons_of_neg _ (by simp [hk])]
        have hstep : disposeRun fails k (a :: rest) =
            (k :: (disposeRun fails (k + 1) rest).1, (disposeRun fails (k + 1) rest).2) := by
          simp [disposeRun, hk]
        rw [hstep, ih (k + 1)]
        cases hf : (List.range' (k + 1) rest.length).find? fails with
        | none => simp
        | some k0 =>
            have hk0 : k + 1 ≤ k0 := (List.mem_range'_1.mp (List.mem_of_find?_eq_some hf)).1
            have h1 : k0 + 1 - k = (k0 - k) + 1 := by omega
            have h2 : k0 + 1 - (k + 1) = k0 - k := by omega
            simp only [h1, h2, List.range'_succ k (k0 - k) 1]

/-- A tab holding two instances (ids 0 and 1). -/
def tabTwoInst : SerialPortTab :=
  { terminalInstances := [{ id := 0, shellLaunchConfig := Json.jobj [] },
                          { id := 1, shellLaunchConfig := Json.jobj [] }]
    activeInstanceIndex := 0
    visible := true }

/-- A service holding a single tab with two instances (ids 0 and 1). -/
def sTwoInst : TerminalService :=
  { terminalTabs := [tabTwoInst], activeTabIndex := 0, isShuttingDown := false, nextId := 2 }

/-- C7 counterexample: with two instances and the 0-th disposal throwing,
`_onShutdown`'s `forEach(instance => instance.dispose())` invokes
`dispose` only on position 0 and the exception escapes — instance 1 is
never disposed, falsifying the claim that a failure at position `k` does
not prevent the remaining instances from being disposed. -/
theorem C7_counterexample :
    (onShutdown sTwoInst false none (fun k => k == 0)).disposedCalls = [0] ∧
    (onShutdown sTwoInst false none (fun k => k == 0)).raised = true ∧
    (1 : Nat) ∉ (onShutdown sTwoInst false none (fun k => k == 0)).disposedCalls := by
  decide

/-- C7 amended: `_onShutdown` invokes `dispose` in flattened order starting
at position 0; when no disposal fails every instance is disposed and no
exception escapes; otherwise `dispose` is invoked exactly on the
positions up to and including the first failing one — the failure
prevents the remaining instances from being disposed and the exception
propagates. -/
theorem C7_amended_disposal_stops_at_failure (s : TerminalService)
    (er : Bool) (prev : Option (Except Unit Json)) (fails : Nat → Bool) :
    (onShutdown s er prev fails).disposedCalls =
      (match (List.range (terminalInstances s).length).find? fails with
       | none => List.range (terminalInstances s).length
       | some k0 => List.range (k0 + 1)) ∧
    (onShutdown s er prev fails).raised =
      (List.range (terminalInstances s).length).any fails := by
  have h := disposeRun_eq fails (terminalInstances s) 0
  rw [← List.range_eq_range'] at h
  constructor
  · show (disposeRun fails 0 (terminalInstances s)).1 = _
    rw [h]
    cases hf : (List.range (terminalInstances s).length).find? fails with
    | none => rfl
    | some k0 => simp [List.range_eq_range']
  · show (disposeRun fails 0 (terminalInstances s)).2 = _
    rw [h]
    cases hf : (List.range (terminalInstances s).length).find? fails with
    | none =>
        exact (List.any_eq_false.mpr fun x hx hpx =>
          List.find?_eq_none.mp hf x hx hpx).symm
    | some k0 =>
        exact (List.any_eq_true.mpr
          ⟨k0, List.mem_of_find?_eq_some hf, List.find?_some hf⟩).symm

/-! Resolution of global instance indices (claim C2). -/

/-- Sum of the instance counts of the first `i` tabs — the prefix sum
`s1 + ... + si` of the claim. -/
def instCountBefore (tabs : List SerialPortTab) (i : Nat) : Nat :=
  ((tabs.take i).map (·.terminalInstances.length)).sum

/-- Total number of instances across all tabs. -/
def totalInstances (tabs : List SerialPortTab) : Nat :=
  (tabs.map (·.terminalInstances.length)).sum

theorem setVisiblesAux_get? (a : Int) (tabs : List SerialPortTab) :
    ∀ c n, (setVisiblesAux a c tabs).get? n =
      (tabs.get? n).map (fun t => { t with visible := decide (((c + n : Nat) : Int) = a) }) := by
  induction tabs with
  | nil => intro c n; simp [setVisiblesAux]
  | cons t rest ih =>
      intro c n
      cases n with
      | zero => simp [setVisiblesAux]
      | succ m =>
          have harith : c + 1 + m = c + (m + 1) := by omega
          simpa [setVisiblesAux, harith] using ih (c + 1) m

theorem modifyAt_get?_self (f : SerialPortTab → SerialPortTab) (tabs : List SerialPortTab) :
    ∀ n, (modifyAt f tabs n).get? n = (tabs.get? n).map f := by
  induction tabs with
  | nil => intro n; cases n <;> simp [modifyAt]
  | cons t rest ih =>
      intro n
      cases n with
      | zero => simp [modifyAt]
      | succ m => simpa [modifyAt] using ih m

/-- The prefix-sum walk resolves `s1+...+si + j` to the `j`-th instance of
the `i`-th tab (0-based), with the walk's starting tab number `c` added
through. -/
theorem globalWalk_resolves (tabs : List SerialPortTab) :
    ∀ i c ti, tabs.get? i = some ti → ∀ j, j < ti.terminalInstances.length →
      ∃ q, globalWalk tabs ((instCountBefore tabs i + j : Nat) : Int) c = some q ∧
        q.tabIndex = c + i ∧ q.localInstanceIndex = j ∧ q.tab = ti ∧
        ti.terminalInstances.get? j = some q.inst := by
  induction tabs with
  | nil => intro i c ti h; simp at h
  | cons t rest ih =>
      intro i c ti h j hj
      cases i with
      | zero =>
          have ht : t = ti := by simpa using h
          subst ht
          have h0 : instCountBefore (t :: rest) 0 = 0 := rfl
          have hcond : 0 ≤ ((instCountBefore (t :: rest) 0 + j : Nat) : Int) ∧
              ((instCountBefore (t :: rest) 0 + j : Nat) : Int) <
                (t.terminalInstances.length : Int) := by
            rw [h0]
            push_cast
            omega
          have hjn : ((instCountBefore (t :: rest) 0 + j : Nat) : Int).toNat = j := by
            rw [h0]
            simp
          rw [globalWalk, dif_pos hcond]
          refine ⟨_, rfl, by simp, hjn, rfl, ?_⟩
          rw [List.get?_eq_get hj]
          exact congrArg some (congrArg t.terminalInstances.get (Fin.ext hjn.symm))
      | succ i' =>
          have h' : rest.get? i' = some ti := by simpa using h
          have hcount : instCountBefore (t :: rest) (i' + 1) =
              t.terminalInstances.length + instCountBefore rest i' := by
            simp [instCountBefore]
          have hcond : ¬(0 ≤ ((instCountBefore (t :: rest) (i' + 1) + j : Nat) : Int) ∧
              ((instCountBefore (t :: rest) (i' + 1) + j : Nat) : Int) <
                (t.terminalInstances.length : Int)) := by
            rw [hcount]
            push_cast
            omega
          have hsub : ((instCountBefore (t :: rest) (i' + 1) + j : Nat) : Int) -
              (t.terminalInstances.length : Int) =
              ((instCountBefore rest i' + j : Nat) : Int) := by
            rw [hcount]
            push_cast
            ring
          obtain ⟨q, hq, hqt, hql, hqtab, hqinst⟩ := ih i' (c + 1) ti h' j hj
          refine ⟨q, ?_, by omega, hql, hqtab, hqinst⟩
          rw [globalWalk, dif_neg hcond, if_pos (by push_cast; omega), hsub, hq]

/-- The prefix-sum walk fails exactly when the index reaches past the total
instance count: the walk exhausts the tab list and returns `null`. -/
theorem globalWalk_out_of_range (tabs : List SerialPortTab) :
    ∀ k : Int, ∀ c, (totalInstances tabs : Int) ≤ k → globalWalk tabs k c = none := by
  induction tabs with
  | nil => intro k c _; rfl
  | cons t rest ih =>
      intro k c hk
      have htot : totalInstances (t :: rest) =
          t.terminalInstances.length + totalInstances rest := by
        simp [totalInstances]
      rw [htot] at hk
      push_cast at hk
      rw [globalWalk, dif_neg (by omega), if_pos (by omega)]
      exact ih (k - t.terminalInstances.length) (c + 1) (by omega)

/-- C2: flattened-index resolution — for every tab configuration, valid tab
position `i` (0-based) and local index `j`, calling
`setActiveInstanceByIndex` with the global index `s1+...+si + j` makes
`j` the active-instance index of tab `i` (its instance list unchanged)
and sets `activeTabIndex` to `i`; and for every index at or beyond the
total instance count the call is a no-op firing no event. -/
theorem C2_flattened_index_resolution (s : TerminalService) (i j : Nat) (ti : SerialPortTab)
    (hi : s.terminalTabs.get? i = some ti) (hj : j < ti.terminalInstances.length) :
    ((setActiveInstanceByIndex s ((instCountBefore s.terminalTabs i + j : Nat) : Int)).1.activeTabIndex
        = (i : Int) ∧
     (∃ t', (setActiveInstanceByIndex s
          ((instCountBefore s.terminalTabs i + j : Nat) : Int)).1.terminalTabs.get? i = some t' ∧
        t'.terminalInstances = ti.terminalInstances ∧ t'.activeInstanceIndex = j)) ∧
    (∀ k : Int, (totalInstances s.terminalTabs : Int) ≤ k →
      setActiveInstanceByIndex s k = (s, [])) := by
  constructor
  · obtain ⟨q, hq, hqt, hql, hqtab, hqinst⟩ :=
      globalWalk_resolves s.terminalTabs i 0 ti hi j hj
    rw [Nat.zero_add] at hqt
    unfold setActiveInstanceByIndex getInstanceFromGlobalInstanceIndex
    rw [hq]
    dsimp only
    constructor
    · simp [hqt]
    · unfold setVisibles
      rw [setVisiblesAux_get? (q.tabIndex : Int) _ 0 i, hqt, modifyAt_get?_self, hi]
      have hset : tabSetActiveInstanceByIndex q.localInstanceIndex ti =
          { ti with activeInstanceIndex := j } := by
        unfold tabSetActiveInstanceByIndex
        rw [hql, if_pos hj]
      simp [hset]
  · intro k hk
    unfold setActiveInstanceByIndex getInstanceFromGlobalInstanceIndex
    rw [globalWalk_out_of_range s.terminalTabs k 0 hk]

/-- A second tab holding two instances (ids 2 and 3). -/
def tabTwoInstB : SerialPortTab :=
  { terminalInstances := [{ id := 2, shellLaunchConfig := Json.jnum 20 },
                          { id := 3, shellLaunchConfig := Json.jnum 21 }]
    activeInstanceIndex := 0
    visible := false }

/-- A service holding two tabs of two instances each. -/
def sTwoTabs : TerminalService :=
  { terminalTabs := [tabTwoInst, tabTwoInstB], activeTabIndex := 0,
    isShuttingDown := false, nextId := 4 }

theorem C2_witness :
    (sTwoTabs.terminalTabs.get? 1 = some tabTwoInstB ∧
     1 < tabTwoInstB.terminalInstances.length) ∧
    (((setActiveInstanceByIndex sTwoTabs
          ((instCountBefore sTwoTabs.terminalTabs 1 + 1 : Nat) : Int)).1.activeTabIndex
        = (1 : Int) ∧
      (∃ t', (setActiveInstanceByIndex sTwoTabs
           ((instCountBefore sTwoTabs.terminalTabs 1 + 1 : Nat) : Int)).1.terminalTabs.get? 1
           = some t' ∧
         t'.terminalInstances = tabTwoInstB.terminalInstances ∧
         t'.activeInstanceIndex = 1)) ∧
     (∀ k : Int, (totalInstances sTwoTabs.terminalTabs : Int) ≤ k →
       setActiveInstanceByIndex sTwoTabs k = (sTwoTabs, []))) :=
  ⟨⟨rfl, by decide⟩,
   C2_flattened_index_resolution sTwoTabs 1 1 tabTwoInstB rfl (by decide)⟩

/-! Tab removal postconditions (claim C3). -/

/-- C3: postconditions of `_removeTab` for a tracked tab at position `pos` —
if the removed tab was the active one and tabs remain, the new active tab
index is `min(removedIndex, len(tabs)-1)` (post-removal length); if no
tabs remain and the service is not shutting down, a panel hide is
requested and "active instance changed" fires carrying no instance;
"instances changed" always fires; and "active tab changed" fires exactly
when the removed tab was the active one. -/
theorem C3_remove_tab_postconditions (s : TerminalService) (pos : Nat)
    (hpos : pos < s.terminalTabs.length) :
    ((s.activeTabIndex = (pos : Int) ∧ (removeTab s pos).1.terminalTabs ≠ []) →
      (removeTab s pos).1.activeTabIndex =
        ((min pos ((removeTab s pos).1.terminalTabs.length - 1) : Nat) : Int)) ∧
    (((removeTab s pos).1.terminalTabs = [] ∧ s.isShuttingDown = false) →
      TEvent.hidePanelRequested ∈ (removeTab s pos).2 ∧
      TEvent.activeInstanceChanged none ∈ (removeTab s pos).2) ∧
    TEvent.instancesChanged ∈ (removeTab s pos).2 ∧
    (TEvent.activeTabChanged ∈ (removeTab s pos).2 ↔ s.activeTabIndex = (pos : Int)) := by
  have hn : (s.terminalTabs.eraseIdx pos).length = s.terminalTabs.length - 1 := by
    simp [List.length_eraseIdx, hpos]
  by_cases hAct : s.activeTabIndex = (pos : Int)
  · by_cases h1 : 0 < (s.terminalTabs.eraseIdx pos).length
    · have hne : (s.terminalTabs.eraseIdx pos).length ≠ 0 := by omega
      have hguard : ¬(((s.terminalTabs.eraseIdx pos).length : Int) ≤
          ((if pos < (s.terminalTabs.eraseIdx pos).length then pos
            else (s.terminalTabs.eraseIdx pos).length - 1 : Nat) : Int)) := by
        split <;> omega
      simp only [removeTab, setActiveTabByIndex, Bool.and_eq_true, decide_eq_true_eq,
        hpos, hAct, h1, hne, if_true, true_and, and_true, if_neg hguard,
        setVisibles_length, false_and, if_false]
      refine ⟨?_, ?_, ?_, ?_⟩
      · intro _
        split <;> omega
      · intro hcontra
        exfalso
        have h0 := congrArg List.length hcontra.1
        rw [setVisibles_length, List.length_nil] at h0
        omega
      · simp
      · simp
    · have hnil : s.terminalTabs.eraseIdx pos = [] := List.length_eq_zero.mp (by omega)
      simp only [removeTab, Bool.and_eq_true, decide_eq_true_eq, hpos, hAct, hnil,
        if_true, true_and, and_true, List.length_nil, lt_self_iff_false, if_false]
      refine ⟨?_, ?_, ?_, ?_⟩
      · intro h
        exact absurd rfl h
      · intro h
        simp [h]
      · by_cases hShut : s.isShuttingDown = false <;> simp [hShut]
      · by_cases hShut : s.isShuttingDown = false <;> simp [hShut]
  · simp only [removeTab, Bool.and_eq_true, decide_eq_true_eq, hpos, hAct, if_true,
      true_and, and_true, and_false, false_and, if_false]
    refine ⟨?_, ?_, ?_, ?_⟩
    · intro h
      exact h.elim
    · intro h
      simp [h.1, h.2]
    · by_cases hShut : s.isShuttingDown = false <;>
        by_cases hz : (s.terminalTabs.eraseIdx pos).length = 0 <;> simp [hShut, hz]
    · constructor
      · intro hmem
        exfalso
        by_cases hShut : s.isShuttingDown = false <;>
          by_cases hz : (s.terminalTabs.eraseIdx pos).length = 0 <;>
            simp [hShut, hz] at hmem
      · intro h
        exact h.elim

theorem C3_witness :
    (0 < sTwoTabs.terminalTabs.length) ∧
    (((sTwoTabs.activeTabIndex = ((0 : Nat) : Int) ∧
        (removeTab sTwoTabs 0).1.terminalTabs ≠ []) →
       (removeTab sTwoTabs 0).1.activeTabIndex =
         ((min 0 ((removeTab sTwoTabs 0).1.terminalTabs.length - 1) : Nat) : Int)) ∧
     (((removeTab sTwoTabs 0).1.terminalTabs = [] ∧ sTwoTabs.isShuttingDown = false) →
       TEvent.hidePanelRequested ∈ (removeTab sTwoTabs 0).2 ∧
       TEvent.activeInstanceChanged none ∈ (removeTab sTwoTabs 0).2) ∧
     TEvent.instancesChanged ∈ (removeTab sTwoTabs 0).2 ∧
     (TEvent.activeTabChanged ∈ (removeTab sTwoTabs 0).2 ↔
       sTwoTabs.activeTabIndex = ((0 : Nat) : Int))) :=
  ⟨by decide, C3_remove_tab_postconditions sTwoTabs 0 (by decide)⟩

/-! Restoration of persisted layouts (claims C8, C9). -/

/-- C8 counterexample: with the restore flag on and a persisted string that
is not valid JSON (`JSON.parse` throws, modelled as the stored
`Except.error`), `_restoreTabs` raises instead of silently doing
nothing — the source only guards `Array.isArray` after a successful
parse. -/
theorem C8_counterexample :
    restoreTabs initialService true (some (Except.error ())) = Except.error () := rfl

/-- C8 amended: `_restoreTabs` leaves the state untouched, creates no
instances and raises no error when the flag is off, when the persisted
value is absent, or when it parses to a non-array JSON value; but a
persisted string that fails to parse propagates the parse error (with the
flag on). -/
theorem C8_amended_malformed_restore (s : TerminalService) (er : Bool)
    (stored : Option (Except Unit Json)) :
    (er = false → restoreTabs s er stored = Except.ok (s, [])) ∧
    (stored = none → restoreTabs s er stored = Except.ok (s, [])) ∧
    (∀ j : Json, stored = some (Except.ok j) → (∀ xs, j ≠ Json.jarr xs) →
      restoreTabs s er stored = Except.ok (s, [])) ∧
    (er = true → stored = some (Except.error ()) →
      restoreTabs s er stored = Except.error ()) := by
  refine ⟨?_, ?_, ?_, ?_⟩
  · intro h
    subst h
    rfl
  · intro h
    subst h
    cases er <;> rfl
  · intro j hj hnot
    subst hj
    cases er
    · rfl
    · unfold restoreTabs
      cases j
      case jarr xs => exact absurd rfl (hnot xs)
      all_goals rfl
  · intro h1 h2
    subst h1
    subst h2
    rfl

theorem C8_amended_witness :
    restoreTabs sSolo true (some (Except.ok (Json.jobj []))) = Except.ok (sSolo, []) :=
  (C8_amended_malformed_restore sSolo true (some (Except.ok (Json.jobj [])))).2.2.1
    (Json.jobj []) rfl (fun _ h => Json.noConfusion h)

/-- A tab whose instance list is (transiently) empty. -/
def tabNoInst : SerialPortTab :=
  { terminalInstances := [], activeInstanceIndex := 0, visible := true }

/-- C9 counterexample: serializing a coordinator holding one tab with zero
instances (the spec's data model allows a tab to reach zero instances
transiently) and restoring the exact persisted value yields one tab with
ONE instance — `tabConfig.instances[0]` is `undefined` for an empty
serialized list, so `createTerminal` runs with the default config — while
the original tab had zero. Instance counts are not reproduced, falsifying
the unrestricted round-trip claim. -/
theorem C9_counterexample :
    [tabNoInst].map (·.terminalInstances.length) = [0] ∧
    (restoreTabs initialService true
        ((onShutdown { initialService with terminalTabs := [tabNoInst] } true none
            (fun _ => false)).stored)).map
        (fun p => p.1.terminalTabs.map (·.terminalInstances.length)) =
      Except.ok [1] := by
  exact ⟨rfl, rfl⟩

/-! Round-trip machinery (claim C9): projections of the tab list that the
restore path preserves or rebuilds. -/

/-- The instance lists of the tabs, in tab order (forgets the visibility and
active-index bookkeeping that `setVisible` churns). -/
def instLists (tabs : List SerialPortTab) : List (List SerialInstance) :=
  tabs.map (·.terminalInstances)

/-- The launch-config lists of the tabs, in tab order — exactly the data the
serialized layout captures. -/
def configsOf (tabs : List SerialPortTab) : List (List Json) :=
  (instLists tabs).map (List.map (·.shellLaunchConfig))

/-- All instance ids in the given instance lists lie below `n` (the id
allocator's freshness invariant). -/
def idsBelow (ls : List (List SerialInstance)) (n : Nat) : Prop :=
  ∀ l ∈ ls, ∀ inst ∈ l, inst.id < n

theorem instLists_setVisiblesAux (a : Int) (tabs : List SerialPortTab) :
    ∀ c, instLists (setVisiblesAux a c tabs) = instLists tabs := by
  induction tabs with
  | nil => intro c; rfl
  | cons t rest ih =>
      intro c
      simp only [setVisiblesAux, instLists, List.map_cons]
      exact congrArg _ (ih (c + 1))

theorem instLists_setVisibles (a : Int) (tabs : List SerialPortTab) :
    instLists (setVisibles a tabs) = instLists tabs :=
  instLists_setVisiblesAux a tabs 0

theorem instLists_modifyAt_splitF (x : SerialInstance) :
    ∀ (preL : List (List SerialInstance)) (tabs : List SerialPortTab)
      (cur : List SerialInstance),
      instLists tabs = preL ++ [cur] →
      instLists (modifyAt (splitF x) tabs preL.length) = preL ++ [cur ++ [x]] := by
  intro preL
  induction preL with
  | nil =>
      intro tabs cur h
      cases tabs with
      | nil => simp [instLists] at h
      | cons t rest =>
          simp only [instLists, List.map_cons, List.nil_append, List.cons.injEq] at h
          simp only [List.length_nil, modifyAt, instLists, List.map_cons, splitF,
            List.nil_append, List.cons.injEq]
          exact ⟨congrArg (· ++ [x]) h.1, h.2⟩
  | cons p ps ih =>
      intro tabs cur h
      cases tabs with
      | nil => simp [instLists] at h
      | cons t rest =>
          simp only [instLists, List.map_cons, List.cons_append, List.cons.injEq] at h
          simp only [List.length_cons, modifyAt, instLists, List.map_cons,
            List.cons_append, List.cons.injEq]
          exact ⟨h.1, ih rest cur h.2⟩

theorem getTabForInstance_append (id0 : Nat) :
    ∀ (preL : List (List SerialInstance)) (tabs : List SerialPortTab)
      (cur : List SerialInstance),
      instLists tabs = preL ++ [cur] →
      (∀ l ∈ preL, ∀ i ∈ l, i.id ≠ id0) →
      (cur.any (fun i => i.id == id0) = true) →
      getTabForInstance tabs id0 = some preL.length := by
  intro preL
  induction preL with
  | nil =>
      intro tabs cur h _hpre hcur
      cases tabs with
      | nil => simp [instLists] at h
      | cons t rest =>
          simp only [instLists, List.map_cons, List.nil_append, List.cons.injEq] at h
          have hhas : tabHasInstance t id0 = true := by
            unfold tabHasInstance
            rw [h.1]
            exact hcur
          unfold getTabForInstance
          rw [if_pos hhas]
          rfl
  | cons p ps ih =>
      intro tabs cur h hpre hcur
      cases tabs with
      | nil => simp [instLists] at h
      | cons t rest =>
          simp only [instLists, List.map_cons, List.cons_append, List.cons.injEq] at h
          have hhas : tabHasInstance t id0 = false := by
            unfold tabHasInstance
            rw [h.1]
            exact List.any_eq_false.mpr fun i hi hbeq =>
              hpre p (List.mem_cons_self p ps) i hi (by simpa using hbeq)
          unfold getTabForInstance
          rw [if_neg (by simp [hhas]),
            ih rest cur h.2 (fun l hl => hpre l (List.mem_cons_of_mem p hl)) hcur]
          rfl

theorem drop_eq_cons_of_get? {α : Type} : ∀ (l : List α) (i : Nat) (x : α),
    l.get? i = some x → l.drop i = x :: l.drop (i + 1) := by
  intro l
  induction l with
  | nil => intro i x h; simp at h
  | cons a rest ih =>
      intro i x h
      cases i with
      | zero =>
          simp only [List.get?] at h
          cases h
          simp
      | succ n => simpa using ih n x (by simpa using h)

/-- The effect of one `splitInstance` call on the instance lists: when the
target id lives in the last tab and in no earlier tab, a fresh instance
seeded with the given config is appended to that last tab. -/
theorem splitInstance_spec (s : TerminalService) (id0 : Nat) (shell : Option Json)
    (preL : List (List SerialInstance)) (cur : List SerialInstance)
    (hIL : instLists s.terminalTabs = preL ++ [cur])
    (hpre : ∀ l ∈ preL, ∀ i ∈ l, i.id ≠ id0)
    (hcur : cur.any (fun i => i.id == id0) = true) :
    instLists (splitInstance s id0 shell).1.terminalTabs =
      preL ++ [cur ++ [{ id := s.nextId, shellLaunchConfig := shell.getD (Json.jobj []) }]] ∧
    (splitInstance s id0 shell).1.nextId = s.nextId + 1 := by
  have hfind := getTabForInstance_append id0 preL s.terminalTabs cur hIL hpre hcur
  unfold splitInstance
  rw [hfind]
  exact ⟨by
    dsimp only
    rw [instLists_setVisibles, instLists_modifyAt_splitF _ preL s.terminalTabs cur hIL],
    rfl⟩

/-- The split loop of `_restoreTabs` appends the remaining configs (from
position `i` on) to the tab holding `id0`, as fresh instances, in
order. -/
theorem restoreSplits_spec (id0 : Nat) (cfgs : List Json) :
    ∀ (fuel i : Nat) (s : TerminalService) (preL : List (List SerialInstance))
      (cur : List SerialInstance),
      i + fuel = cfgs.length →
      instLists s.terminalTabs = preL ++ [cur] →
      (∀ l ∈ preL, ∀ inst ∈ l, inst.id ≠ id0) →
      (cur.any (fun inst => inst.id == id0) = true) →
      idsBelow (preL ++ [cur]) s.nextId →
      ∃ s2 evs news,
        restoreSplits id0 (Json.jarr cfgs) s i fuel = Except.ok (s2, evs) ∧
        instLists s2.terminalTabs = preL ++ [cur ++ news] ∧
        news.map (·.shellLaunchConfig) = cfgs.drop i ∧
        idsBelow (preL ++ [cur ++ news]) s2.nextId ∧
        s.nextId ≤ s2.nextId := by
  intro fuel
  induction fuel with
  | zero =>
      intro i s preL cur hi hIL _hpre _hcur hB
      have hdrop : cfgs.drop i = [] := by
        have hieq : i = cfgs.length := by omega
        rw [hieq, List.drop_length]
      exact ⟨s, [], [], rfl, by simpa using hIL, by simp [hdrop],
        by simpa using hB, Nat.le_refl _⟩
  | succ fuel ih =>
      intro i s preL cur hi hIL hpre hcur hB
      have hilt : i < cfgs.length := by omega
      obtain ⟨c, hc⟩ : ∃ c, cfgs.get? i = some c := ⟨_, List.get?_eq_get hilt⟩
      have hji : jsIndex (some (Json.jarr cfgs)) i = Except.ok (some c) := by
        simp only [jsIndex]
        rw [hc]
      have hsp := splitInstance_spec s id0 (some c) preL cur hIL hpre hcur
      simp only [Option.getD_some] at hsp
      have hcur1 : ((cur ++ [({ id := s.nextId, shellLaunchConfig := c } : SerialInstance)]).any
          (fun inst => inst.id == id0) = true) := by
        rw [List.any_append]
        simp [hcur]
      have hB1 : idsBelow (preL ++ [cur ++ [{ id := s.nextId, shellLaunchConfig := c }]])
          (splitInstance s id0 (some c)).1.nextId := by
        rw [hsp.2]
        intro l hl inst hinst
        rcases List.mem_append.mp hl with h1 | h1
        · exact Nat.lt_succ_of_lt (hB l (List.mem_append_left _ h1) inst hinst)
        · rw [List.mem_singleton] at h1
          subst h1
          rcases List.mem_append.mp hinst with h2 | h2
          · exact Nat.lt_succ_of_lt
              (hB cur (List.mem_append_right _ (List.mem_singleton_self _)) inst h2)
          · rw [List.mem_singleton] at h2
            subst h2
            exact Nat.lt_succ_self _
      obtain ⟨s2, evs, news, hrec, hIL2, hmap, hB2, hle⟩ :=
        ih (i + 1) (splitInstance s id0 (some c)).1 preL
          (cur ++ [{ id := s.nextId, shellLaunchConfig := c }]) (by omega) hsp.1 hpre hcur1 hB1
      refine ⟨s2, (splitInstance s id0 (some c)).2 ++ evs,
        { id := s.nextId, shellLaunchConfig := c } :: news, ?_, ?_, ?_, ?_, ?_⟩
      · simp only [restoreSplits]
        rw [hji]
        dsimp only
        rw [hrec]
      · rw [hIL2, List.append_assoc, List.singleton_append]
      · rw [List.map_cons, hmap, drop_eq_cons_of_get? cfgs i c hc]
      · rw [List.append_assoc, List.singleton_append] at hB2
        exact hB2
      · have hn1 := hsp.2
        omega

/-- One `tabConfigs.forEach` iteration of `_restoreTabs` on a well-formed
serialized tab descriptor with a non-empty config list appends exactly
one tab whose instance configs are that list, in order. -/
theorem restoreOne_spec (s : TerminalService) (cfgs : List Json) (hne : cfgs ≠ [])
    (hB : idsBelow (instLists s.terminalTabs) s.nextId) :
    ∃ s2 evs,
      restoreOne s (Json.jobj [("instances", Json.jarr cfgs)]) = Except.ok (s2, evs) ∧
      configsOf s2.terminalTabs = configsOf s.terminalTabs ++ [cfgs] ∧
      idsBelow (instLists s2.terminalTabs) s2.nextId ∧
      s.nextId ≤ s2.nextId := by
  obtain ⟨c0, rest, rfl⟩ : ∃ c0 rest, cfgs = c0 :: rest := by
    cases cfgs with
    | nil => exact absurd rfl hne
    | cons a b => exact ⟨a, b, rfl⟩
  have hIL1 : instLists (createTerminal s (some c0)).1.terminalTabs =
      instLists s.terminalTabs ++ [[{ id := s.nextId, shellLaunchConfig := c0 }]] := by
    simp [createTerminal, instLists]
  have hpre1 : ∀ l ∈ instLists s.terminalTabs, ∀ inst ∈ l, inst.id ≠ s.nextId :=
    fun l hl inst hi => Nat.ne_of_lt (hB l hl inst hi)
  have hcur1 : ([{ id := s.nextId, shellLaunchConfig := c0 }] : List SerialInstance).any
      (fun inst => inst.id == s.nextId) = true := by simp
  have hB1 : idsBelow (instLists s.terminalTabs ++
      [[{ id := s.nextId, shellLaunchConfig := c0 }]])
      (createTerminal s (some c0)).1.nextId := by
    intro l hl inst hi
    rcases List.mem_append.mp hl with h1 | h1
    · exact Nat.lt_succ_of_lt (hB l h1 inst hi)
    · rw [List.mem_singleton] at h1
      subst h1
      rw [List.mem_singleton] at hi
      subst hi
      exact Nat.lt_succ_self _
  obtain ⟨s2, evs, news, hrec, hIL2, hmap, hB2, hle⟩ :=
    restoreSplits_spec s.nextId (c0 :: rest) rest.length 1 (createTerminal s (some c0)).1
      (instLists s.terminalTabs) [{ id := s.nextId, shellLaunchConfig := c0 }]
      (by rw [List.length_cons]; omega) hIL1 hpre1 hcur1 hB1
  have hn1 : (createTerminal s (some c0)).1.nextId = s.nextId + 1 := rfl
  refine ⟨s2, [TEvent.instancesChanged] ++ evs, ?_, ?_, ?_, by omega⟩
  · show restoreOne s (Json.jobj [("instances", Json.jarr (c0 :: rest))]) = _
    simp only [restoreOne, jsGet, jsonLookup, if_pos, jsIndex, List.get?, jsLen,
      List.length_cons, Nat.add_sub_cancel]
    rw [show (createTerminal s (some c0)).2.1.id = s.nextId from rfl, hrec]
    rfl
  · rw [configsOf, hIL2, List.map_append]
    have h1 : ([[{ id := s.nextId, shellLaunchConfig := c0 }] ++ news] : List _).map
        (List.map (·.shellLaunchConfig)) = [c0 :: rest] := by
      simp only [List.map_cons, List.map_nil, List.map_append, hmap, List.drop_succ_cons,
        List.drop_zero, List.singleton_append, List.cons_append, List.nil_append]
    rw [h1]
    rfl
  · rw [hIL2]
    exact hB2

/-- The `tabConfigs.forEach` fold over well-formed serialized descriptors
with non-empty config lists rebuilds exactly those config lists, appended
to whatever tabs the coordinator already holds. -/
theorem restoreList_spec :
    ∀ (cfgss : List (List Json)) (s : TerminalService),
      (∀ cfgs ∈ cfgss, cfgs ≠ []) →
      idsBelow (instLists s.terminalTabs) s.nextId →
      ∃ s2 evs,
        restoreList s (cfgss.map fun cfgs => Json.jobj [("instances", Json.jarr cfgs)]) =
          Except.ok (s2, evs) ∧
        configsOf s2.terminalTabs = configsOf s.terminalTabs ++ cfgss ∧
        idsBelow (instLists s2.terminalTabs) s2.nextId := by
  intro cfgss
  induction cfgss with
  | nil =>
      intro s _h hB
      exact ⟨s, [], rfl, by simp, hB⟩
  | cons cfgs rest ih =>
      intro s h hB
      obtain ⟨s1, evs1, h1, hc1, hB1, _⟩ :=
        restoreOne_spec s cfgs (h cfgs (List.mem_cons_self _ _)) hB
      obtain ⟨s2, evs2, h2, hc2, hB2⟩ :=
        ih s1 (fun c hc => h c (List.mem_cons_of_mem _ hc)) hB1
      refine ⟨s2, evs1 ++ evs2, ?_, ?_, hB2⟩
      · rw [List.map_cons]
        simp only [restoreList]
        rw [h1]
        dsimp only
        rw [h2]
      · rw [hc2, hc1, List.append_assoc, List.singleton_append]

/-- C9 amended: the restore round trip holds for every coordinator state in
which each tab holds at least one instance — serializing via
`_onShutdown` (restore flag on) and feeding the exact persisted value to
`_restoreTabs` in a fresh coordinator (with the always-succeeding
modelled factory) rebuilds the same number of tabs with the same
instance counts and the same launch configs, in the same order. A tab
with zero instances breaks the round trip (see the counterexample), so
the claim is amended to non-empty tabs. -/
theorem C9_amended_round_trip (tabs : List SerialPortTab)
    (h : ∀ t ∈ tabs, t.terminalInstances ≠ []) :
    ∃ s2 evs,
      restoreTabs initialService true
        ((onShutdown { initialService with terminalTabs := tabs } true none
            (fun _ => false)).stored) = Except.ok (s2, evs) ∧
      configsOf s2.terminalTabs = configsOf tabs ∧
      s2.terminalTabs.length = tabs.length ∧
      s2.terminalTabs.map (·.terminalInstances.length) =
        tabs.map (·.terminalInstances.length) := by
  have hser : serializeLayout tabs =
      Json.jarr ((configsOf tabs).map fun cfgs =>
        Json.jobj [("instances", Json.jarr cfgs)]) := by
    simp [serializeLayout, configsOf, instLists, List.map_map]
  have hne : ∀ cfgs ∈ configsOf tabs, cfgs ≠ [] := by
    intro cfgs hc hnil
    rw [configsOf, instLists, List.map_map, List.mem_map] at hc
    obtain ⟨t, ht, heq⟩ := hc
    rw [hnil] at heq
    simp only [Function.comp] at heq
    exact h t ht (List.map_eq_nil_iff.mp heq)
  obtain ⟨s2, evs, hrun, hcfg, _⟩ :=
    restoreList_spec (configsOf tabs) initialService hne
      (by intro l hl; simp [instLists, initialService] at hl)
  have hc2 : configsOf s2.terminalTabs = configsOf tabs := by simpa using hcfg
  refine ⟨s2, evs, ?_, hc2, ?_, ?_⟩
  · show restoreTabs initialService true (some (Except.ok (serializeLayout tabs))) = _
    unfold restoreTabs
    rw [if_neg (by simp), hser]
    exact hrun
  · have hlen := congrArg List.length hc2
    simpa [configsOf, instLists] using hlen
  · have hcnt := congrArg (List.map List.length) hc2
    simpa [configsOf, instLists, List.map_map, Function.comp_def, List.length_map] using hcnt

theorem C9_amended_witness :
    (∀ t ∈ [tabTwoInst], t.terminalInstances ≠ []) ∧
    (∃ s2 evs,
      restoreTabs initialService true
        ((onShutdown { initialService with terminalTabs := [tabTwoInst] } true none
            (fun _ => false)).stored) = Except.ok (s2, evs) ∧
      configsOf s2.terminalTabs = configsOf [tabTwoInst] ∧
      s2.terminalTabs.length = [tabTwoInst].length ∧
      s2.terminalTabs.map (·.terminalInstances.length) =
        [tabTwoInst].map (·.terminalInstances.length)) := by
  have hyp : ∀ t ∈ [tabTwoInst], t.terminalInstances ≠ [] := by
    intro t ht
    rw [List.mem_singleton] at ht
    subst ht
    simp [tabTwoInst]
  exact ⟨hyp, C9_amended_round_trip [tabTwoInst] hyp⟩

end KendryteIDE
